import Mathlib

/-!
Shallow embedding of the clawdbot gateway UI event coordinator
(`src/unnamed/part_016`), the DingTalk channel plugin
(`src/extensions/dingtalk/src/channel.ts`) and the shared retry utility
(`src/unnamed/part_007`), together with theorems settling the frozen
claims about the gap self-heal coordinator, the exec-approval queue, the
per-account caches, the outbound fallback path, the allowlist policy and
the retry/backoff policy.

Timestamps are modelled as `Int` milliseconds (the JS code uses
`Date.now()`); JS `Map`s are modelled as association lists with
insertion-order `set` semantics; promise settlement is modelled by an
explicit `SettledStatus`; fallible calls are modelled with `Except`.
-/

namespace Clawdbot

/-! ## Event log buffer (part_016, `recordLocalEvent` / `handleGatewayEventUnsafe`) -/

/-- One entry of the client-side event log (`EventLogEntry` in app-events). -/
structure EventLogEntry where
  ts : Int
  event : String
  payload : String
  deriving DecidableEq, Repr

/-- The slice of `GatewayHost` touched by event-log recording. -/
structure EventLogHost where
  eventLogBuffer : List EventLogEntry
  eventLog : List EventLogEntry
  tab : String
  deriving DecidableEq, Repr

/-- `recordLocalEvent` (part_016 lines 74-79): prepend the new entry and keep
at most 250 entries (`[entry, ...buffer].slice(0, 250)`); mirror into
`eventLog` when the debug tab is active. -/
def recordLocalEvent (h : EventLogHost) (now : Int) (event payload : String) : EventLogHost :=
  let buffer := ({ ts := now, event := event, payload := payload } :: h.eventLogBuffer).take 250
  { h with
    eventLogBuffer := buffer
    eventLog := if h.tab = "debug" then buffer else h.eventLog }

/-- The event-log update at the top of `handleGatewayEventUnsafe`
(part_016 lines 344-351): identical prepend-and-slice discipline for a
gateway event frame. -/
def recordGatewayEventLog (h : EventLogHost) (now : Int) (event payload : String) :
    EventLogHost :=
  let buffer := ({ ts := now, event := event, payload := payload } :: h.eventLogBuffer).take 250
  { h with
    eventLogBuffer := buffer
    eventLog := if h.tab = "debug" then buffer else h.eventLog }

/-! ## Gap self-heal coordinator (part_016, `attemptGapSelfHeal`) -/

/-- `GAP_SELF_HEAL_DEBOUNCE_MS` (part_016 line 41). -/
def GAP_SELF_HEAL_DEBOUNCE_MS : Int := 3000

/-- `host.gapRecovery`: `{ lastAttemptAt, inFlight }`.  `lastAttemptAt` is
`none` for the initial `Number.NEGATIVE_INFINITY` (so the debounce check
`now - lastAttemptAt < 3000` is false). -/
structure GapRecoveryState where
  lastAttemptAt : Option Int
  inFlight : Bool
  deriving DecidableEq, Repr

/-- Events seen by the coordinator: an `onGap` call at time `now` with the
connection predicate `host.client && host.connected`, or the completion of
an in-flight refresh batch (the `finally` block clearing `inFlight`). -/
inductive GapEvent where
  | call (now : Int) (connected : Bool)
  | finish
  deriving DecidableEq, Repr

/-- The debounce test `now - state.lastAttemptAt < GAP_SELF_HEAL_DEBOUNCE_MS`
(false against `NEGATIVE_INFINITY`). -/
def gapDebounced (now : Int) (lastAttemptAt : Option Int) : Bool :=
  match lastAttemptAt with
  | none => false
  | some t => now - t < GAP_SELF_HEAL_DEBOUNCE_MS

/-- Guard portion of `attemptGapSelfHeal` (part_016 lines 81-101): returns the
new `host.gapRecovery` and `some now` exactly when a refresh batch fires.
A call with no client/connection returns untouched; otherwise the state is
initialized (`??=`), and an in-flight or debounced call is a no-op. -/
def gapStep (st : Option GapRecoveryState) (ev : GapEvent) :
    Option GapRecoveryState × Option Int :=
  match ev with
  | .finish => (st.map fun s => { s with inFlight := false }, none)
  | .call now connected =>
    if !connected then
      (st, none)
    else
      let s := st.getD { lastAttemptAt := none, inFlight := false }
      if s.inFlight then
        (some s, none)
      else if gapDebounced now s.lastAttemptAt then
        (some s, none)
      else
        (some { lastAttemptAt := some now, inFlight := true }, some now)

/-- Run a sequence of gap events, collecting the start times of the refresh
batches that fired. -/
def gapRun (st : Option GapRecoveryState) : List GapEvent → Option GapRecoveryState × List Int
  | [] => (st, [])
  | ev :: evs =>
    let (st1, fired) := gapStep st ev
    let (st2, rest) := gapRun st1 evs
    (st2, fired.toList ++ rest)

/-- Settlement status of one refresh promise (`Promise.allSettled`). -/
inductive SettledStatus where
  | fulfilled
  | rejected
  deriving DecidableEq, Repr

/-- Error-resolution tail of `attemptGapSelfHeal` (part_016 lines 115-134):
`prevError` is `host.lastError` captured before the batch, `curError` is
`host.lastError` at the `allSettled` check.  If some promise rejected, the
generic event-gap message is written only when no error is currently set;
otherwise a pre-existing `prevError` is restored. -/
def gapHealResolveError (prevError curError : Option String) (generic : String)
    (results : List SettledStatus) : Option String :=
  if results.any (· == .rejected) then
    match curError with
    | none => some generic
    | some e => some e
  else
    match prevError with
    | some e => some e
    | none => curError

/-! ## Exec approval queue (part_016 `handleGatewayEventUnsafe`, lines 456-474) -/

/-- A pending authorization ticket (spec section 3: `id` unique plus
`expiresAtMs`). -/
structure ExecApprovalRequest where
  id : String
  expiresAtMs : Int
  deriving DecidableEq, Repr

/-- Modelled from the spec: `addExecApproval` from
`controllers/exec-approval.ts` is not under src (only its caller is);
spec section 4.5 says `requested(id, expiresAtMs)` "enqueues the ticket". -/
def addExecApproval (q : List ExecApprovalRequest) (e : ExecApprovalRequest) :
    List ExecApprovalRequest :=
  q ++ [e]

/-- Modelled from the spec: `removeExecApproval` from
`controllers/exec-approval.ts` is not under src; spec section 4.5 says
resolution/expiry "removes the ticket" by id and "removal is idempotent
(removing an absent id is a no-op)". -/
def removeExecApproval (q : List ExecApprovalRequest) (id : String) :
    List ExecApprovalRequest :=
  q.filter fun t => t.id ≠ id

/-- The `exec.approval.requested` handler (part_016 lines 456-465): enqueue the
parsed ticket; the scheduled timer callback later runs
`removeExecApproval(queue, entry.id)` and nothing else. -/
def handleExecApprovalRequested (q : List ExecApprovalRequest) (e : ExecApprovalRequest) :
    List ExecApprovalRequest :=
  addExecApproval q e

/-- The expiry-timer callback body (part_016 lines 462-464): it only removes
the id from the queue and emits no notification. -/
def execApprovalTimerFire (q : List ExecApprovalRequest) (id : String) :
    List ExecApprovalRequest :=
  removeExecApproval q id

/-- The `exec.approval.resolved` handler (part_016 lines 469-474). -/
def handleExecApprovalResolved (q : List ExecApprovalRequest) (id : String) :
    List ExecApprovalRequest :=
  removeExecApproval q id

/-! ## DingTalk session-webhook fallback cache (channel.ts lines 45-146) -/

/-- `SessionWebhookCacheEntry` (channel.ts lines 45-51). -/
structure SessionWebhookCacheEntry where
  sessionWebhook : String
  senderId : Option String
  isDirect : Bool
  expiresAt : Int
  lastSeenAt : Int
  deriving DecidableEq, Repr

/-- The JS `Map<string, SessionWebhookCacheEntry>` modelled as an association
list in insertion order. -/
abbrev SessionWebhookCache := List (String × SessionWebhookCacheEntry)

/-- `Map.set` semantics: overwrite in place when the key exists, otherwise
append. -/
def mapSet (m : SessionWebhookCache) (k : String) (v : SessionWebhookCacheEntry) :
    SessionWebhookCache :=
  if m.any (fun p => p.1 == k) then
    m.map fun p => if p.1 == k then (k, v) else p
  else
    m ++ [(k, v)]

/-- `Map.get` semantics over the association list. -/
def mapGet (m : SessionWebhookCache) (k : String) : Option SessionWebhookCacheEntry :=
  m.lookup k

/-- `Map.delete` semantics. -/
def mapDelete (m : SessionWebhookCache) (k : String) : SessionWebhookCache :=
  m.filter fun p => p.1 ≠ k

/-- `resolveSessionWebhookCacheKey` (channel.ts lines 87-89):
`(accountId ?? "default") + ":" + to`. -/
def resolveSessionWebhookCacheKey (accountId : Option String) (dest : String) : String :=
  accountId.getD "default" ++ ":" ++ dest

/-- `cacheSessionWebhook` (channel.ts lines 100-130).  A falsy
`sessionWebhook` is not stored; a non-finite or negative `ttlMs` falls back
to 6 hours; `ttlMs === 0` stores nothing. -/
def cacheSessionWebhook (now : Int) (cache : SessionWebhookCache) (accountId : Option String)
    (dest : String) (sessionWebhook : Option String) (senderId : Option String) (isDirect : Bool)
    (ttlMs : Option Int) : SessionWebhookCache :=
  match sessionWebhook with
  | none => cache
  | some sw =>
    if sw = "" then cache
    else
      let ttl : Int :=
        match ttlMs with
        | some t => if 0 ≤ t then t else 6 * 60 * 60 * 1000
        | none => 6 * 60 * 60 * 1000
      if ttl = 0 then cache
      else
        mapSet cache (resolveSessionWebhookCacheKey accountId dest)
          { sessionWebhook := sw
            senderId := senderId
            isDirect := isDirect
            expiresAt := now + ttl
            lastSeenAt := now }

/-- `getCachedSessionWebhook` (channel.ts lines 132-146): returns the entry
for `(accountId, to)` unless missing or expired; an expired entry is lazily
deleted.  Returns the (possibly updated) cache and the lookup result. -/
def getCachedSessionWebhook (now : Int) (cache : SessionWebhookCache)
    (accountId : Option String) (dest : String) :
    SessionWebhookCache × Option SessionWebhookCacheEntry :=
  let key := resolveSessionWebhookCacheKey accountId dest
  match mapGet cache key with
  | none => (cache, none)
  | some entry =>
    if now ≥ entry.expiresAt then (mapDelete cache key, none)
    else (cache, some entry)

/-! ## DingTalk access-token cache (channel.ts lines 38-40 and 213-237) -/

/-- The module-global mutable pair `accessToken` / `accessTokenExpiry`
(channel.ts lines 38-40).  Note: one shared cell for the whole module, not
keyed by account. -/
structure TokenCacheState where
  accessToken : Option String
  accessTokenExpiry : Int
  deriving DecidableEq, Repr

/-- The per-account credentials consulted by `getAccessToken`. -/
structure DingTalkCredentials where
  clientId : String
  clientSecret : String
  deriving DecidableEq, Repr

/-- `getAccessToken` (channel.ts lines 213-237) with the HTTP round-trip
abstracted by `fetchToken`, which returns the fresh `accessToken` and
`expireIn` (seconds) for the supplied credentials.  A cached token with
more than 60 s of margin is returned regardless of which account's
credentials were passed. -/
def getAccessToken (now : Int) (st : TokenCacheState) (config : DingTalkCredentials)
    (fetchToken : DingTalkCredentials → String × Int) : String × TokenCacheState :=
  match st.accessToken with
  | some tok =>
    if st.accessTokenExpiry > now + 60000 then (tok, st)
    else
      let (fresh, expireIn) := fetchToken config
      (fresh, { accessToken := some fresh, accessTokenExpiry := now + expireIn * 1000 })
  | none =>
    let (fresh, expireIn) := fetchToken config
    (fresh, { accessToken := some fresh, accessTokenExpiry := now + expireIn * 1000 })

/-! ## Retry with bounded exponential backoff (part_007, `retryWithBackoff`) -/

/-- The error shape inspected by the retry loop:
`(err as { response?: { status?: number } }).response?.status`. -/
structure ApiError where
  status : Option Nat
  deriving DecidableEq, Repr

/-- The retryable test (part_007 lines 101-102):
`statusCode === 401 || statusCode === 429 || (statusCode && statusCode >= 500)`
(a missing or zero — falsy — status code is not retryable). -/
def isRetryableStatus (status : Option Nat) : Bool :=
  match status with
  | none => false
  | some s => s == 401 || s == 429 || (s != 0 && 500 ≤ s)

/-- Outcome of a full `retryWithBackoff` run. -/
inductive RetryOutcome (α : Type) where
  | ok (value : α)
  | thrown (err : ApiError)
  | exhausted
  deriving DecidableEq, Repr

/-- Trace of a `retryWithBackoff` run: final outcome, number of attempts
made, and the backoff delays slept between attempts. -/
structure RetryTrace (α : Type) where
  outcome : RetryOutcome α
  attemptsMade : Nat
  delays : List Nat
  deriving DecidableEq, Repr

/-- The `for (let attempt = 1; attempt <= maxRetries; attempt++)` loop of
`retryWithBackoff` (part_007 lines 95-112), starting at `attempt` with
`fuel` loop iterations remaining (`fuel = maxRetries + 1 - attempt` at
every call, so `fuel = 0` is the loop exit reaching the final
`throw new Error("Retry exhausted without returning")`).  The i-th call
of `fn` is abstracted as `fn i`.  On a failure that is retryable and not
the last attempt, sleep `baseDelayMs * 2 ^ (attempt - 1)` and continue;
otherwise rethrow. -/
def retryFrom (fn : Nat → Except ApiError α) (maxRetries baseDelayMs : Nat) :
    Nat → Nat → RetryTrace α
  | _, 0 => { outcome := .exhausted, attemptsMade := 0, delays := [] }
  | attempt, fuel + 1 =>
    match fn attempt with
    | .ok v => { outcome := .ok v, attemptsMade := 1, delays := [] }
    | .error e =>
      if isRetryableStatus e.status && attempt ≠ maxRetries then
        let rest := retryFrom fn maxRetries baseDelayMs (attempt + 1) fuel
        { outcome := rest.outcome
          attemptsMade := rest.attemptsMade + 1
          delays := baseDelayMs * 2 ^ (attempt - 1) :: rest.delays }
      else
        { outcome := .thrown e, attemptsMade := 1, delays := [] }

/-- `retryWithBackoff` (part_007 lines 89-115) with `fn`'s successive
behaviors abstracted as `fn 1, fn 2, ...`. -/
def retryWithBackoff (fn : Nat → Except ApiError α) (maxRetries baseDelayMs : Nat) :
    RetryTrace α :=
  retryFrom fn maxRetries baseDelayMs 1 maxRetries

/-! ## DingTalk direct-message allowlist (channel.ts lines 529-616) -/

/-- JS `String.prototype.toLowerCase` over the character list (ASCII case
mapping, which is all the DingTalk ids exercise). -/
def jsToLower (s : String) : String :=
  String.mk (s.data.map Char.toLower)

/-- JS prefix test, by character list. -/
def jsStartsWith (s pre : String) : Bool :=
  pre.data.isPrefixOf s.data

/-- JS `slice(n)` / dropping the first `n` characters. -/
def jsDrop (s : String) (n : Nat) : String :=
  String.mk (s.data.drop n)

/-- JS `String.prototype.trim`: strip leading and trailing whitespace. -/
def jsTrim (s : String) : String :=
  String.mk (((s.data.dropWhile Char.isWhitespace).reverse.dropWhile Char.isWhitespace).reverse)

/-- The allowlist-entry normalization `value.replace(/^(dingtalk|dd|ding):/i, "")`
(channel.ts line 542, identically `normalizeEntry` at line 821): strip one
leading platform-id tag, matched case-insensitively; regex alternation
prefers `dingtalk:` over `ding:`. -/
def normalizeEntry (s : String) : String :=
  let l := jsToLower s
  if jsStartsWith l "dingtalk:" then jsDrop s 9
  else if jsStartsWith l "dd:" then jsDrop s 3
  else if jsStartsWith l "ding:" then jsDrop s 5
  else s

/-- `NormalizedAllowFrom` (channel.ts lines 530-535). -/
structure NormalizedAllowFrom where
  entries : List String
  entriesLower : List String
  hasWildcard : Bool
  hasEntries : Bool
  deriving DecidableEq, Repr

/-- `normalizeAllowFrom` (channel.ts lines 537-550): trim, drop blank
entries, detect the `"*"` wildcard, strip platform-id tags from the
remaining entries, and lowercase them for comparison. -/
def normalizeAllowFrom (list : List String) : NormalizedAllowFrom :=
  let entries := (list.map jsTrim).filter (· ≠ "")
  let hasWildcard := entries.contains "*"
  let normalized := (entries.filter (· ≠ "*")).map normalizeEntry
  { entries := normalized
    entriesLower := normalized.map jsToLower
    hasWildcard := hasWildcard
    hasEntries := entries.length > 0 }

/-- `isSenderAllowed` (channel.ts lines 552-564): an empty (post-trim)
allowlist or a wildcard admits everyone; otherwise the sender id must be
truthy and its lowercase form must appear among the normalized entries. -/
def isSenderAllowed (allow : NormalizedAllowFrom) (senderId : Option String) : Bool :=
  if !allow.hasEntries then true
  else if allow.hasWildcard then true
  else
    match senderId with
    | some sid => sid != "" && allow.entriesLower.contains (jsToLower sid)
    | none => false

/-- Outcome of the direct-message gate in `handleDingTalkMessage`. -/
inductive DmDecision where
  | blocked
  | routed
  deriving DecidableEq, Repr

/-- The direct-message authorization gate of `handleDingTalkMessage`
(channel.ts lines 590-616), for an inbound direct message: under the
`allowlist` policy a disallowed sender is answered with an access-denied
notice and the handler returns before the envelope reaches the session
router; any other policy (default `open`) routes. -/
def dmGate (dmPolicy : String) (allowFrom : List String) (senderId : Option String) :
    DmDecision :=
  if dmPolicy = "allowlist" then
    if isSenderAllowed (normalizeAllowFrom allowFrom) senderId then .routed else .blocked
  else .routed

/-! ## DingTalk outbound `sendText` with fallback (channel.ts lines 845-900) -/

/-- The error shape read by `sendText`'s catch blocks:
`{ response?: { data?: unknown }; message?: string }`. -/
structure ErrInfo where
  responseData : Option String
  message : Option String
  deriving DecidableEq, Repr

/-- `err.response?.data || err.message` (JS truthiness: a missing or empty
`data` falls through to `message`). -/
def errPayload (e : ErrInfo) : Option String :=
  match e.responseData with
  | some d => if d = "" then e.message else some d
  | none => e.message

/-- Result of `dingtalkPlugin.outbound.sendText`. -/
inductive SendTextResult where
  | okRes (data : String)
  | errSimple (error : Option String)
  | errBoth (proactive fallback : Option String)
  deriving DecidableEq, Repr

/-- `dingtalkPlugin.outbound.sendText` (channel.ts lines 845-900).  The
proactive API call and the fallback `sendBySession` call are abstracted as
`proactive` and `fallbackSend` (the latter a function of the computed
`atUserId`).  On proactive failure, when fallback is enabled
(`outboundFallbackToSessionWebhook !== false`) and an unexpired cached
session webhook exists for `(accountId, to)`, the fallback is attempted;
its success yields `ok: true`, its failure yields `ok: false` with both
error payloads; with no cached handle the proactive payload alone is
returned. -/
def sendText (now : Int) (cache : SessionWebhookCache) (fallbackEnabled mentionFallback : Bool)
    (accountId : Option String) (dest : String) (proactive : Except ErrInfo String)
    (fallbackSend : Option String → Except ErrInfo String) : SendTextResult :=
  match proactive with
  | .ok r => .okRes r
  | .error e =>
    if fallbackEnabled then
      match (getCachedSessionWebhook now cache accountId dest).2 with
      | some cached =>
        let atUserId : Option String :=
          if mentionFallback && !cached.isDirect then cached.senderId else none
        match fallbackSend atUserId with
        | .ok r => .okRes r
        | .error fe => .errBoth (errPayload e) (errPayload fe)
      | none => .errSimple (errPayload e)
    else .errSimple (errPayload e)

/-- `sendProactiveMessage` (channel.ts lines 335-375): acquire a token via
`getAccessToken` (whose own HTTP fetch the code wraps in
`retryWithBackoff`, channel.ts line 219), pick the group or one-to-one
endpoint by whether the target starts with `cid`, and issue the send as a
single `await axios({...})` call — unlike the token fetch and the
interactive-card calls (channel.ts lines 450 and 498), the send is not
wrapped in `retryWithBackoff`, so its error propagates after exactly one
attempt.  The HTTP layer is abstracted: `fetchToken` backs the token
fetch and `post i url token` is the i-th send attempt against `url`
(the code only ever makes attempt 1); the message formatting
(`detectMarkdownAndExtractTitle`, `msgKey`/`msgParam`, the payload
targeting fields) does not affect the failure semantics and is folded
into `post`.  Returns the send outcome, the updated token-cache cell, and
the number of send attempts made. -/
def sendProactiveMessage (now : Int) (st : TokenCacheState) (config : DingTalkCredentials)
    (fetchToken : DingTalkCredentials → String × Int) (target : String)
    (post : Nat → String → String → Except ApiError α) :
    Except ApiError α × TokenCacheState × Nat :=
  let (token, st1) := getAccessToken now st config fetchToken
  let isGroup := jsStartsWith target "cid"
  let url :=
    if isGroup then "https://api.dingtalk.com/v1.0/robot/groupMessages/send"
    else "https://api.dingtalk.com/v1.0/robot/oToMessages/batchSend"
  (post 1 url token, st1, 1)

/-! ## Theorems -/

/-- C10: the client-side event log is bounded — after recording any event
(a locally recorded gap event via `recordLocalEvent` or a gateway frame
via the prologue of `handleGatewayEventUnsafe`), `eventLogBuffer` holds at
most 250 entries with the newest entry first, and its size is exactly
`min 250 (previous size + 1)`, so processing an event never grows the
buffer beyond the bound. -/
theorem eventLogBuffer_bounded (h : EventLogHost) (now : Int) (event payload : String) :
    (recordLocalEvent h now event payload).eventLogBuffer.length ≤ 250
    ∧ (recordLocalEvent h now event payload).eventLogBuffer.head? =
        some { ts := now, event := event, payload := payload }
    ∧ (recordLocalEvent h now event payload).eventLogBuffer.length =
        min 250 (h.eventLogBuffer.length + 1)
    ∧ (recordGatewayEventLog h now event payload).eventLogBuffer.length ≤ 250
    ∧ (recordGatewayEventLog h now event payload).eventLogBuffer.head? =
        some { ts := now, event := event, payload := payload } := by
  refine ⟨?_, ?_, ?_, ?_, ?_⟩
  all_goals simp [recordLocalEvent, recordGatewayEventLog, List.length_take, List.take_succ_cons]
  omega

/-- C6 (amended): a `cacheSessionWebhook` write performed with `ttlMs = 0`
stores nothing — the cache map is unchanged by the write, so a subsequent
`getCachedSessionWebhook` lookup for the same `(accountId, destination)`
key returns exactly what it returned before the write (in particular
nothing when the key had no unexpired entry before the write). -/
theorem cacheSessionWebhook_ttl0_noop (now : Int) (cache : SessionWebhookCache)
    (accountId : Option String) (dest : String) (sessionWebhook senderId : Option String)
    (isDirect : Bool) :
    cacheSessionWebhook now cache accountId dest sessionWebhook senderId isDirect (some 0) = cache
    ∧ (getCachedSessionWebhook now
        (cacheSessionWebhook now cache accountId dest sessionWebhook senderId isDirect (some 0))
        accountId dest).2 =
      (getCachedSessionWebhook now cache accountId dest).2 := by
  have hwrite :
      cacheSessionWebhook now cache accountId dest sessionWebhook senderId isDirect (some 0) =
        cache := by
    cases sessionWebhook with
    | none => rfl
    | some sw => by_cases hsw : sw = "" <;> simp [cacheSessionWebhook, hsw]
  exact ⟨hwrite, by rw [hwrite]⟩

/-- C6 counterexample: the claim as stated — that after any `ttlMs = 0`
write the subsequent lookup for the key returns nothing — fails when the
key already held an unexpired entry: the write stores nothing, and the
lookup still returns the pre-existing entry. -/
theorem cacheSessionWebhook_ttl0_counterexample :
    (getCachedSessionWebhook 0
      (cacheSessionWebhook 0
        [(resolveSessionWebhookCacheKey (some "acct") "dest1",
          { sessionWebhook := "oldHook", senderId := none, isDirect := true,
            expiresAt := 100, lastSeenAt := 0 })]
        (some "acct") "dest1" (some "newHook") none true (some 0))
      (some "acct") "dest1").2 =
      some { sessionWebhook := "oldHook", senderId := none, isDirect := true,
             expiresAt := 100, lastSeenAt := 0 } := by decide

/-- C5: the claim that a cached access token obtained for one account is
never returned for another fails in the code — `accessToken` /
`accessTokenExpiry` are a single module-global cell with no account in its
key, so a token fetched with account A's credentials is returned untouched
for account B's request while unexpired.  Concretely: the fetch oracle
returns `tokA` for account A and `tokB` for account B, account A populates
the cache at t = 0 with a 7200 s expiry, and account B's
`getAccessToken` at t = 1000 ms returns `tokA`. -/
theorem accessToken_shared_across_accounts :
    (let fetch := fun (c : DingTalkCredentials) =>
      (if c.clientId = "A" then "tokA" else "tokB", 7200)
    let r1 := getAccessToken 0 { accessToken := none, accessTokenExpiry := 0 }
      { clientId := "A", clientSecret := "secretA" } fetch
    let r2 := getAccessToken 1000 r1.2
      { clientId := "B", clientSecret := "secretB" } fetch
    r1.1 = "tokA" ∧ r2.1 = "tokA" ∧ fetch { clientId := "B", clientSecret := "secretB" } =
      ("tokB", 7200)) := by decide

/-- C1 counterexample: the claim says the generic event-gap error is
surfaced only when every refresh in the batch rejects; in the code a batch
with one rejection and one fulfilled refresh (`results.some` rejected, not
`every`) still writes the generic message when no error is showing. -/
theorem gapHeal_partial_failure_counterexample :
    gapHealResolveError none none "eventGapGeneric" [.rejected, .fulfilled] =
      some "eventGapGeneric"
    ∧ SettledStatus.fulfilled ∈ [SettledStatus.rejected, SettledStatus.fulfilled] := by decide

/-- C1 (amended): provided the generic message is not coincidentally equal
to an error already recorded, the generic event-gap error is surfaced iff
at least one refresh promise in the batch rejects and `host.lastError` is
not set at the check; and when no refresh rejects a pre-existing error is
restored rather than replaced. -/
theorem gapHeal_generic_error_iff (prevError curError : Option String) (generic : String)
    (results : List SettledStatus) (hp : prevError ≠ some generic)
    (hc : curError ≠ some generic) :
    (gapHealResolveError prevError curError generic results = some generic ↔
      (results.any (· == .rejected)) = true ∧ curError = none)
    ∧ ((results.any (· == .rejected)) = false → prevError ≠ none →
        gapHealResolveError prevError curError generic results = prevError) := by
  constructor
  · unfold gapHealResolveError
    by_cases hr : results.any (· == .rejected) = true
    · cases curError with
      | none => simp [hr]
      | some e =>
        simp only [hr, if_true]
        constructor
        · intro he
          exact absurd he hc
        · rintro ⟨-, h⟩
          exact absurd h (by simp)
    · simp only [Bool.not_eq_true] at hr
      cases prevError with
      | none => simp [hr, hc]
      | some p =>
        simp only [hr, Bool.false_eq_true, if_false]
        constructor
        · intro he
          exact absurd he hp
        · rintro ⟨h, -⟩
          exact absurd h (by simp)
  · intro hr hprev
    unfold gapHealResolveError
    cases prevError with
    | none => exact absurd rfl hprev
    | some p => simp [hr]

/-- C1 witness for `gapHeal_generic_error_iff` at a concrete batch: one
rejected refresh and no current error surfaces the generic message. -/
theorem gapHeal_generic_error_iff_witness :
    gapHealResolveError (some "older") none "generic" [.rejected] = some "generic" :=
  ((gapHeal_generic_error_iff (some "older") none "generic" [.rejected]
    (by decide) (by decide)).1).2 ⟨by decide, rfl⟩

/-- C7: resolution and expiry each remove an exec-approval ticket by id and
removal is idempotent.  From a queue not containing the id, after
`exec.approval.requested` enqueues the ticket and a later
`exec.approval.resolved` removes it (even past `expiresAtMs`), the queue
is exactly restored (the ticket was removed exactly once), the
subsequently firing expiry-timer callback leaves the queue unchanged (so
it produces nothing, in particular no duplicate expiry effect), and
removal of an id is idempotent on any queue. -/
theorem execApproval_resolution_then_timer (q : List ExecApprovalRequest)
    (e : ExecApprovalRequest) (h : ∀ t ∈ q, t.id ≠ e.id) :
    handleExecApprovalResolved (handleExecApprovalRequested q e) e.id = q
    ∧ (∀ t ∈ handleExecApprovalResolved (handleExecApprovalRequested q e) e.id, t.id ≠ e.id)
    ∧ execApprovalTimerFire (handleExecApprovalResolved (handleExecApprovalRequested q e) e.id)
        e.id =
      handleExecApprovalResolved (handleExecApprovalRequested q e) e.id
    ∧ (∀ q2 : List ExecApprovalRequest,
        removeExecApproval (removeExecApproval q2 e.id) e.id = removeExecApproval q2 e.id) := by
  have hq : handleExecApprovalResolved (handleExecApprovalRequested q e) e.id = q := by
    unfold handleExecApprovalResolved handleExecApprovalRequested addExecApproval
      removeExecApproval
    rw [List.filter_append]
    have h1 : q.filter (fun t => t.id ≠ e.id) = q :=
      List.filter_eq_self.mpr (fun t ht => by simpa using h t ht)
    have h2 : [e].filter (fun t => t.id ≠ e.id) = [] := by simp
    rw [h1, h2, List.append_nil]
  have hidem : ∀ q2 : List ExecApprovalRequest,
      removeExecApproval (removeExecApproval q2 e.id) e.id = removeExecApproval q2 e.id := by
    intro q2
    unfold removeExecApproval
    rw [List.filter_filter]
    simp
  refine ⟨hq, ?_, ?_, hidem⟩
  · rw [hq]
    exact h
  · show removeExecApproval _ _ = _
    rw [hq]
    calc removeExecApproval q e.id
        = removeExecApproval (removeExecApproval (handleExecApprovalRequested q e) e.id) e.id :=
          by rw [show removeExecApproval (handleExecApprovalRequested q e) e.id = q from hq]
      _ = removeExecApproval (handleExecApprovalRequested q e) e.id := hidem _
      _ = q := hq

/-- C7 witness for `execApproval_resolution_then_timer` at a concrete
queue holding one unrelated ticket. -/
theorem execApproval_resolution_then_timer_witness :
    handleExecApprovalResolved
      (handleExecApprovalRequested [{ id := "other", expiresAtMs := 5 }]
        { id := "tick", expiresAtMs := 10 }) "tick" =
      [{ id := "other", expiresAtMs := 5 }] :=
  (execApproval_resolution_then_timer [{ id := "other", expiresAtMs := 5 }]
    { id := "tick", expiresAtMs := 10 } (by decide)).1

/-- C2: when the proactive send throws, fallback is enabled and an
unexpired cached session webhook exists for `(accountId, to)`, `sendText`
attempts the fallback delivery; a successful fallback yields `ok: true`
with the fallback's data, and a fallback that also throws yields
`ok: false` with an error object carrying both the proactive and the
fallback error payloads. -/
theorem sendText_fallback_paths (now : Int) (cache : SessionWebhookCache) (mention : Bool)
    (accountId : Option String) (dest : String) (e : ErrInfo)
    (fallbackSend : Option String → Except ErrInfo String) (entry : SessionWebhookCacheEntry)
    (hc : (getCachedSessionWebhook now cache accountId dest).2 = some entry) :
    (∀ r, fallbackSend (if mention && !entry.isDirect then entry.senderId else none) = .ok r →
      sendText now cache true mention accountId dest (.error e) fallbackSend = .okRes r)
    ∧ (∀ fe,
        fallbackSend (if mention && !entry.isDirect then entry.senderId else none) = .error fe →
        sendText now cache true mention accountId dest (.error e) fallbackSend =
          .errBoth (errPayload e) (errPayload fe)) := by
  have hopen : sendText now cache true mention accountId dest (.error e) fallbackSend =
      match fallbackSend (if mention && !entry.isDirect then entry.senderId else none) with
      | .ok r => .okRes r
      | .error fe => .errBoth (errPayload e) (errPayload fe) := by
    unfold sendText
    rw [hc]
    rfl
  constructor
  · intro r hr
    rw [hopen, hr]
  · intro fe hfe
    rw [hopen, hfe]

/-- C2 witness for `sendText_fallback_paths` at a concrete cache entry:
the fallback succeeding yields `ok: true`. -/
theorem sendText_fallback_paths_witness :
    sendText 0
      [("acct:dest1",
        { sessionWebhook := "hook", senderId := some "sender", isDirect := false,
          expiresAt := 100, lastSeenAt := 0 })]
      true true (some "acct") "dest1" (.error { responseData := some "perr", message := none })
      (fun _ => .ok "delivered") = .okRes "delivered" :=
  (sendText_fallback_paths 0
    [("acct:dest1",
      { sessionWebhook := "hook", senderId := some "sender", isDirect := false,
        expiresAt := 100, lastSeenAt := 0 })]
    true (some "acct") "dest1" { responseData := some "perr", message := none }
    (fun _ => .ok "delivered")
    { sessionWebhook := "hook", senderId := some "sender", isDirect := false,
      expiresAt := 100, lastSeenAt := 0 } (by decide)).1 "delivered" rfl

/-- C4: under the `allowlist` direct-message policy with a single allowFrom
entry that normalizes (trimmed, platform-id tag stripped, lowercased) to
`u1`, an inbound direct message whose sender id lowercases to `u1` is
routed onward, and one whose sender id lowercases to `u2` is blocked
before the envelope reaches the session router. -/
theorem allowlist_u1_authorization (e sid sid2 : String)
    (he : jsToLower (normalizeEntry (jsTrim e)) = "u1")
    (hstar : jsTrim e ≠ "*") (hblank : jsTrim e ≠ "")
    (hs : jsToLower sid = "u1") (hs2 : jsToLower sid2 = "u2") :
    dmGate "allowlist" [e] (some sid) = .routed
    ∧ dmGate "allowlist" [e] (some sid2) = .blocked := by
  have hsid : sid ≠ "" := by
    intro hcontra
    rw [hcontra] at hs
    exact absurd hs (by decide)
  have hsid2 : sid2 ≠ "" := by
    intro hcontra
    rw [hcontra] at hs2
    exact absurd hs2 (by decide)
  have hA : normalizeAllowFrom [e] =
      { entries := [normalizeEntry (jsTrim e)]
        entriesLower := [jsToLower (normalizeEntry (jsTrim e))]
        hasWildcard := false
        hasEntries := true } := by
    simp [normalizeAllowFrom, hblank, hstar, Ne.symm hstar, List.contains]
  constructor
  · simp [dmGate, isSenderAllowed, hA, he, hs, hsid]
  · simp [dmGate, isSenderAllowed, hA, he, hs2, hsid2]

/-- C4 witness for `allowlist_u1_authorization` with the entry written as
`DingTalk:u1` and the sender ids `U1` and `u2`. -/
theorem allowlist_u1_authorization_witness :
    dmGate "allowlist" ["DingTalk:u1"] (some "U1") = .routed
    ∧ dmGate "allowlist" ["DingTalk:u1"] (some "u2") = .blocked :=
  allowlist_u1_authorization "DingTalk:u1" "U1" "u2" (by decide) (by decide) (by decide)
    (by decide) (by decide)

/-- The `lastAttemptAt` component of the optional gap-recovery state. -/
def gapLastAttempt (st : Option GapRecoveryState) : Option Int :=
  st.bind fun s => s.lastAttemptAt

theorem gapRun_cons (st : Option GapRecoveryState) (ev : GapEvent) (evs : List GapEvent) :
    gapRun st (ev :: evs) =
      ((gapRun (gapStep st ev).1 evs).1,
        (gapStep st ev).2.toList ++ (gapRun (gapStep st ev).1 evs).2) := by
  simp [gapRun]

/-- Core separation invariant of the self-heal coordinator: along any event
trace the fire times are pairwise at least one debounce window apart, and
every fire comes at least one window after the recorded last attempt. -/
theorem gapRun_fires_sep (evs : List GapEvent) : ∀ st : Option GapRecoveryState,
    ((gapRun st evs).2.Pairwise fun a b => a + GAP_SELF_HEAL_DEBOUNCE_MS ≤ b)
    ∧ (∀ t, gapLastAttempt st = some t →
        ∀ f ∈ (gapRun st evs).2, t + GAP_SELF_HEAL_DEBOUNCE_MS ≤ f) := by
  induction evs with
  | nil =>
    intro st
    exact ⟨by simp [gapRun], by intro t ht f hf; simp [gapRun] at hf⟩
  | cons ev evs ih =>
    intro st
    cases ev with
    | finish =>
      have hstep : gapStep st .finish = (st.map fun s => { s with inFlight := false }, none) :=
        rfl
      rw [gapRun_cons, hstep]
      simp only [Option.toList_none, List.nil_append]
      refine ⟨(ih _).1, ?_⟩
      intro t ht f hf
      refine (ih _).2 t ?_ f hf
      cases st with
      | none => simp [gapLastAttempt] at ht
      | some s => simpa [gapLastAttempt] using ht
    | call now conn =>
      cases conn with
      | false =>
        have hstep : gapStep st (.call now false) = (st, none) := rfl
        rw [gapRun_cons, hstep]
        simp only [Option.toList_none, List.nil_append]
        exact ⟨(ih _).1, fun t ht f hf => (ih _).2 t ht f hf⟩
      | true =>
        cases st with
        | none =>
          have hstep : gapStep none (.call now true) =
              (some { lastAttemptAt := some now, inFlight := true }, some now) := rfl
          rw [gapRun_cons, hstep]
          simp only [Option.toList_some, List.singleton_append]
          have hrest := ih (some { lastAttemptAt := some now, inFlight := true })
          constructor
          · refine List.pairwise_cons.mpr ⟨?_, hrest.1⟩
            intro f hf
            exact hrest.2 now rfl f hf
          · intro t ht
            simp [gapLastAttempt] at ht
        | some s =>
          cases hif : s.inFlight with
          | true =>
            have hstep : gapStep (some s) (.call now true) = (some s, none) := by
              simp [gapStep, hif]
            rw [gapRun_cons, hstep]
            simp only [Option.toList_none, List.nil_append]
            exact ⟨(ih _).1, fun t ht f hf => (ih _).2 t ht f hf⟩
          | false =>
            cases hdb : gapDebounced now s.lastAttemptAt with
            | true =>
              have hstep : gapStep (some s) (.call now true) = (some s, none) := by
                simp [gapStep, hif, hdb]
              rw [gapRun_cons, hstep]
              simp only [Option.toList_none, List.nil_append]
              exact ⟨(ih _).1, fun t ht f hf => (ih _).2 t ht f hf⟩
            | false =>
              have hstep : gapStep (some s) (.call now true) =
                  (some { lastAttemptAt := some now, inFlight := true }, some now) := by
                simp [gapStep, hif, hdb]
              rw [gapRun_cons, hstep]
              simp only [Option.toList_some, List.singleton_append]
              have hrest := ih (some { lastAttemptAt := some now, inFlight := true })
              constructor
              · refine List.pairwise_cons.mpr ⟨?_, hrest.1⟩
                intro f hf
                exact hrest.2 now rfl f hf
              · intro t ht f hf
                have hlt : s.lastAttemptAt = some t := by
                  simpa [gapLastAttempt] using ht
                have hgap : t + GAP_SELF_HEAL_DEBOUNCE_MS ≤ now := by
                  rw [hlt] at hdb
                  simp [gapDebounced] at hdb
                  omega
                rcases List.mem_cons.mp hf with rfl | hf2
                · exact hgap
                · have hnf := hrest.2 now rfl f hf2
                  have hC : (0 : Int) ≤ GAP_SELF_HEAL_DEBOUNCE_MS := by decide
                  omega

theorem pairwise_sep_window (l : List Int) (w : Int)
    (hp : l.Pairwise fun a b => a + GAP_SELF_HEAL_DEBOUNCE_MS ≤ b) :
    (l.filter fun t => decide (w ≤ t) && decide (t < w + GAP_SELF_HEAL_DEBOUNCE_MS)).length
      ≤ 1 := by
  have hp2 : (l.filter fun t => decide (w ≤ t) && decide (t < w + GAP_SELF_HEAL_DEBOUNCE_MS))
      |>.Pairwise fun a b => a + GAP_SELF_HEAL_DEBOUNCE_MS ≤ b :=
    hp.sublist (List.filter_sublist l)
  match hfl : l.filter fun t => decide (w ≤ t) && decide (t < w + GAP_SELF_HEAL_DEBOUNCE_MS) with
  | [] => simp
  | [a] => simp
  | a :: b :: rest =>
    exfalso
    rw [hfl] at hp2
    have hab : a + GAP_SELF_HEAL_DEBOUNCE_MS ≤ b :=
      (List.pairwise_cons.mp hp2).1 b (List.mem_cons_self b rest)
    have ha : a ∈ l.filter fun t => decide (w ≤ t) && decide (t < w + GAP_SELF_HEAL_DEBOUNCE_MS) := by
      rw [hfl]; exact List.mem_cons_self a (b :: rest)
    have hb : b ∈ l.filter fun t => decide (w ≤ t) && decide (t < w + GAP_SELF_HEAL_DEBOUNCE_MS) := by
      rw [hfl]; exact List.mem_cons_of_mem a (List.mem_cons_self b rest)
    have hpa := List.of_mem_filter ha
    have hpb := List.of_mem_filter hb
    simp only [Bool.and_eq_true, decide_eq_true_eq] at hpa hpb
    omega

/-- C3: starting from a fresh coordinator, along any sequence of `onGap`
calls and batch completions, at most one refresh batch fires inside any
window of `GAP_SELF_HEAL_DEBOUNCE_MS` (3000 ms): the fire times are
pairwise at least 3000 ms apart and any half-open 3000 ms window contains
at most one of them; moreover a call arriving while an attempt is in
flight, or within 3000 ms of the last attempt's start, performs no
refreshes and leaves the recovery state unchanged. -/
theorem gap_selfheal_rate_limit (evs : List GapEvent) (w : Int) :
    ((gapRun none evs).2.Pairwise fun a b => a + GAP_SELF_HEAL_DEBOUNCE_MS ≤ b)
    ∧ ((gapRun none evs).2.filter fun t =>
        decide (w ≤ t) && decide (t < w + GAP_SELF_HEAL_DEBOUNCE_MS)).length ≤ 1
    ∧ (∀ (s : GapRecoveryState) (now : Int), s.inFlight = true →
        gapStep (some s) (.call now true) = (some s, none))
    ∧ (∀ (s : GapRecoveryState) (now t : Int), s.inFlight = false →
        s.lastAttemptAt = some t → now - t < GAP_SELF_HEAL_DEBOUNCE_MS →
        gapStep (some s) (.call now true) = (some s, none)) := by
  refine ⟨(gapRun_fires_sep evs none).1,
    pairwise_sep_window _ w (gapRun_fires_sep evs none).1, ?_, ?_⟩
  · intro s now hif
    simp [gapStep, hif]
  · intro s now t hif hlt hdb
    simp [gapStep, hif, gapDebounced, hlt, hdb]

/-- C3 witness for `gap_selfheal_rate_limit`: on a two-call trace at
t = 0 ms and t = 1000 ms at most one batch fires in the window starting at
0, and a debounced call at t = 1000 ms with last attempt at t = 0 is a
no-op. -/
theorem gap_selfheal_rate_limit_witness :
    ((gapRun none [GapEvent.call 0 true, GapEvent.call 1000 true]).2.filter fun t =>
      decide ((0 : Int) ≤ t) && decide (t < 0 + GAP_SELF_HEAL_DEBOUNCE_MS)).length ≤ 1
    ∧ gapStep (some { lastAttemptAt := some 0, inFlight := false }) (.call 1000 true) =
        (some { lastAttemptAt := some 0, inFlight := false }, none) :=
  ⟨(gap_selfheal_rate_limit [GapEvent.call 0 true, GapEvent.call 1000 true] 0).2.1,
    (gap_selfheal_rate_limit [] 0).2.2.2 { lastAttemptAt := some 0, inFlight := false } 1000 0
      rfl rfl (by decide)⟩

theorem retryFrom_zero (fn : Nat → Except ApiError α) (m b a : Nat) :
    retryFrom fn m b a 0 = { outcome := .exhausted, attemptsMade := 0, delays := [] } := rfl

theorem retryFrom_succ_ok (fn : Nat → Except ApiError α) (m b a f : Nat) (v : α)
    (hfa : fn a = .ok v) :
    retryFrom fn m b a (f + 1) = { outcome := .ok v, attemptsMade := 1, delays := [] } := by
  rw [retryFrom, hfa]

theorem retryFrom_succ_retry (fn : Nat → Except ApiError α) (m b a f : Nat) (e : ApiError)
    (hfa : fn a = .error e) (hret : (isRetryableStatus e.status && decide (a ≠ m)) = true) :
    retryFrom fn m b a (f + 1) =
      { outcome := (retryFrom fn m b (a + 1) f).outcome
        attemptsMade := (retryFrom fn m b (a + 1) f).attemptsMade + 1
        delays := b * 2 ^ (a - 1) :: (retryFrom fn m b (a + 1) f).delays } := by
  rw [retryFrom, hfa]
  show (if (isRetryableStatus e.status && decide (a ≠ m)) = true then
      ({ outcome := (retryFrom fn m b (a + 1) f).outcome
         attemptsMade := (retryFrom fn m b (a + 1) f).attemptsMade + 1
         delays := b * 2 ^ (a - 1) :: (retryFrom fn m b (a + 1) f).delays } : RetryTrace α)
    else { outcome := .thrown e, attemptsMade := 1, delays := [] }) = _
  rw [if_pos hret]

theorem retryFrom_succ_throw (fn : Nat → Except ApiError α) (m b a f : Nat) (e : ApiError)
    (hfa : fn a = .error e) (hret : (isRetryableStatus e.status && decide (a ≠ m)) = false) :
    retryFrom fn m b a (f + 1) = { outcome := .thrown e, attemptsMade := 1, delays := [] } := by
  rw [retryFrom, hfa]
  show (if (isRetryableStatus e.status && decide (a ≠ m)) = true then
      ({ outcome := (retryFrom fn m b (a + 1) f).outcome
         attemptsMade := (retryFrom fn m b (a + 1) f).attemptsMade + 1
         delays := b * 2 ^ (a - 1) :: (retryFrom fn m b (a + 1) f).delays } : RetryTrace α)
    else { outcome := .thrown e, attemptsMade := 1, delays := [] }) = _
  rw [if_neg (fun hc => Bool.false_ne_true (hret ▸ hc))]

theorem retryFrom_attempts_le (fn : Nat → Except ApiError α) (m b : Nat) :
    ∀ fuel a, (retryFrom fn m b a fuel).attemptsMade ≤ fuel := by
  intro fuel
  induction fuel with
  | zero => intro a; rw [retryFrom_zero]
  | succ f ih =>
    intro a
    cases hfa : fn a with
    | ok v =>
      rw [retryFrom_succ_ok fn m b a f v hfa]
      exact Nat.succ_le_succ (Nat.zero_le f)
    | error e =>
      cases hret : (isRetryableStatus e.status && decide (a ≠ m)) with
      | true =>
        rw [retryFrom_succ_retry fn m b a f e hfa hret]
        exact Nat.succ_le_succ (ih (a + 1))
      | false =>
        rw [retryFrom_succ_throw fn m b a f e hfa hret]
        exact Nat.succ_le_succ (Nat.zero_le f)

theorem retryFrom_attempts_pos (fn : Nat → Except ApiError α) (m b f a : Nat) :
    1 ≤ (retryFrom fn m b a (f + 1)).attemptsMade := by
  cases hfa : fn a with
  | ok v =>
    rw [retryFrom_succ_ok fn m b a f v hfa]
  | error e =>
    cases hret : (isRetryableStatus e.status && decide (a ≠ m)) with
    | true =>
      rw [retryFrom_succ_retry fn m b a f e hfa hret]
      exact Nat.succ_le_succ (Nat.zero_le _)
    | false =>
      rw [retryFrom_succ_throw fn m b a f e hfa hret]

theorem retryFrom_delays (fn : Nat → Except ApiError α) (m b : Nat) :
    ∀ fuel a, 1 ≤ a → a + fuel = m + 1 →
      (retryFrom fn m b a fuel).delays =
        (List.range ((retryFrom fn m b a fuel).attemptsMade - 1)).map
          fun i => b * 2 ^ (a - 1 + i) := by
  intro fuel
  induction fuel with
  | zero => intro a ha hinv; rw [retryFrom_zero]; rfl
  | succ f ih =>
    intro a ha hinv
    cases hfa : fn a with
    | ok v =>
      rw [retryFrom_succ_ok fn m b a f v hfa]
      rfl
    | error e =>
      cases hret : (isRetryableStatus e.status && decide (a ≠ m)) with
      | false =>
        rw [retryFrom_succ_throw fn m b a f e hfa hret]
        rfl
      | true =>
        rw [retryFrom_succ_retry fn m b a f e hfa hret]
        have ham : a ≠ m := by simpa using ((Bool.and_eq_true _ _).mp hret).2
        have hf1 : 1 ≤ f := by omega
        obtain ⟨f1, rfl⟩ : ∃ f1, f = f1 + 1 := ⟨f - 1, by omega⟩
        have hpos := retryFrom_attempts_pos fn m b f1 (a + 1)
        have hrec := ih (a + 1) (by omega) (by omega)
        show b * 2 ^ (a - 1) :: (retryFrom fn m b (a + 1) (f1 + 1)).delays =
          (List.range ((retryFrom fn m b (a + 1) (f1 + 1)).attemptsMade + 1 - 1)).map
            fun i => b * 2 ^ (a - 1 + i)
        obtain ⟨n, hn⟩ : ∃ n, (retryFrom fn m b (a + 1) (f1 + 1)).attemptsMade = n + 1 :=
          ⟨(retryFrom fn m b (a + 1) (f1 + 1)).attemptsMade - 1, by omega⟩
        rw [hrec, hn, Nat.add_sub_cancel, Nat.add_sub_cancel, Nat.add_sub_cancel,
          List.range_succ_eq_map, List.map_cons, List.map_map]
        congr 1
        refine List.map_congr_left ?_
        intro i hi
        simp only [Function.comp]
        congr 1
        congr 1
        omega

theorem retryFrom_retried_retryable (fn : Nat → Except ApiError α) (m b : Nat) :
    ∀ fuel a k, a ≤ k → k + 1 < a + (retryFrom fn m b a fuel).attemptsMade →
      ∃ e, fn k = .error e ∧ isRetryableStatus e.status = true := by
  intro fuel
  induction fuel with
  | zero =>
    intro a k hak hk
    rw [retryFrom_zero] at hk
    have hk2 : k + 1 < a + 0 := hk
    exact absurd hk2 (by omega)
  | succ f ih =>
    intro a k hak hk
    cases hfa : fn a with
    | ok v =>
      rw [retryFrom_succ_ok fn m b a f v hfa] at hk
      have hk2 : k + 1 < a + 1 := hk
      exact absurd hk2 (by omega)
    | error e =>
      cases hret : (isRetryableStatus e.status && decide (a ≠ m)) with
      | true =>
        rw [retryFrom_succ_retry fn m b a f e hfa hret] at hk
        rcases Nat.lt_or_ge a k with hlt | hge
        · refine ih (a + 1) k (by omega) ?_
          have hk2 : k + 1 < a + ((retryFrom fn m b (a + 1) f).attemptsMade + 1) := hk
          omega
        · have hka : k = a := by omega
          subst hka
          exact ⟨e, hfa, ((Bool.and_eq_true _ _).mp hret).1⟩
      | false =>
        rw [retryFrom_succ_throw fn m b a f e hfa hret] at hk
        have hk2 : k + 1 < a + 1 := hk
        exact absurd hk2 (by omega)

/-- Policy of the `retryWithBackoff` utility in isolation: at most
`maxRetries` attempts; the sleep before the (i+1)-th attempt is
`baseDelayMs * 2 ^ (i - 1)` (exponential backoff starting at
`baseDelayMs`); every attempt that was followed by a retry failed with a
retryable status; a first attempt failing with a non-retryable status
(any 4xx other than 401 and 429, or a missing status) is rethrown
immediately after exactly one attempt; and a status is retryable exactly
when it is 401, 429 or at least 500. -/
theorem retryWithBackoff_policy (fn : Nat → Except ApiError α) (m b : Nat) :
    (retryWithBackoff fn m b).attemptsMade ≤ m
    ∧ (retryWithBackoff fn m b).delays =
        (List.range ((retryWithBackoff fn m b).attemptsMade - 1)).map (fun i => b * 2 ^ i)
    ∧ (∀ k, 1 ≤ k → k < (retryWithBackoff fn m b).attemptsMade →
        ∃ e, fn k = .error e ∧ isRetryableStatus e.status = true)
    ∧ (∀ e, 1 ≤ m → fn 1 = .error e → isRetryableStatus e.status = false →
        retryWithBackoff fn m b = { outcome := .thrown e, attemptsMade := 1, delays := [] })
    ∧ (∀ s, isRetryableStatus (some s) = true ↔ s = 401 ∨ s = 429 ∨ 500 ≤ s)
    ∧ isRetryableStatus none = false := by
  refine ⟨retryFrom_attempts_le fn m b m 1, ?_, ?_, ?_, ?_, rfl⟩
  · have h := retryFrom_delays fn m b m 1 (by omega) (by omega)
    rw [retryWithBackoff, h]
    exact List.map_congr_left fun i _ => by norm_num
  · intro k hk1 hk2
    rw [retryWithBackoff] at hk2
    exact retryFrom_retried_retryable fn m b m 1 k hk1 (by omega)
  · intro e hm h1 hr
    rw [retryWithBackoff]
    obtain ⟨f, rfl⟩ : ∃ f, m = f + 1 := ⟨m - 1, by omega⟩
    rw [retryFrom, h1]
    simp [hr]
  · intro s
    simp only [isRetryableStatus, Bool.or_eq_true, beq_iff_eq, Bool.and_eq_true,
      bne_iff_ne, decide_eq_true_eq]
    omega

/-- C8 counterexample: the claim says every proactive outbound send retries
429 (and 5xx) failures with backoff, but `sendProactiveMessage` issues its
send as a single unwrapped `axios` call: an HTTP 429 from the send is
propagated after exactly one attempt with no backoff, even though 429 is
a retryable status and the `retryWithBackoff` policy applied to the same
failing call would have made 3 attempts with delays of 100 and 200 ms. -/
theorem sendProactive_429_not_retried :
    (sendProactiveMessage 0 { accessToken := none, accessTokenExpiry := 0 }
      { clientId := "A", clientSecret := "sA" } (fun _ => ("tok", 7200)) "user1"
      (fun _ _ _ => (.error { status := some 429 } : Except ApiError String))).1 =
        .error { status := some 429 }
    ∧ (sendProactiveMessage 0 { accessToken := none, accessTokenExpiry := 0 }
      { clientId := "A", clientSecret := "sA" } (fun _ => ("tok", 7200)) "user1"
      (fun _ _ _ => (.error { status := some 429 } : Except ApiError String))).2.2 = 1
    ∧ isRetryableStatus (some 429) = true
    ∧ retryWithBackoff (fun _ => (.error { status := some 429 } : Except ApiError Nat)) 3 100 =
        { outcome := .thrown { status := some 429 }, attemptsMade := 3,
          delays := [100, 200] } :=
  ⟨rfl, rfl, by decide, by decide⟩

/-- C8 (amended): the `retryWithBackoff` utility enforces the claimed
policy — at most `maxRetries` attempts, delay `baseDelayMs * 2^(attempt-1)`
between attempts, retries only after failures whose status is retryable
(exactly 401, 429 or at least 500), and immediate rethrow of a
non-retryable first failure — but the proactive message-send API call in
`sendProactiveMessage` is not wrapped in it: the send is issued exactly
once, and any error it produces, retryable or not, propagates immediately
(only the token acquisition and interactive-card calls go through the
retry utility). -/
theorem retry_policy_and_proactive_send (fn : Nat → Except ApiError α) (m b : Nat)
    (now : Int) (st : TokenCacheState) (config : DingTalkCredentials)
    (fetchToken : DingTalkCredentials → String × Int) (target : String)
    (post : Nat → String → String → Except ApiError β) :
    (retryWithBackoff fn m b).attemptsMade ≤ m
    ∧ (retryWithBackoff fn m b).delays =
        (List.range ((retryWithBackoff fn m b).attemptsMade - 1)).map (fun i => b * 2 ^ i)
    ∧ (∀ k, 1 ≤ k → k < (retryWithBackoff fn m b).attemptsMade →
        ∃ e, fn k = .error e ∧ isRetryableStatus e.status = true)
    ∧ (∀ e, 1 ≤ m → fn 1 = .error e → isRetryableStatus e.status = false →
        retryWithBackoff fn m b = { outcome := .thrown e, attemptsMade := 1, delays := [] })
    ∧ (∀ s, isRetryableStatus (some s) = true ↔ s = 401 ∨ s = 429 ∨ 500 ≤ s)
    ∧ (sendProactiveMessage now st config fetchToken target post).2.2 = 1
    ∧ (∀ e, (∀ url token, post 1 url token = .error e) →
        (sendProactiveMessage now st config fetchToken target post).1 = .error e) := by
  obtain ⟨h1, h2, h3, h4, h5, -⟩ := retryWithBackoff_policy fn m b
  refine ⟨h1, h2, h3, h4, h5, rfl, ?_⟩
  intro e he
  exact he _ _

/-- C8 witness for `retry_policy_and_proactive_send`: a 404 on the first
utility attempt is rethrown immediately with no retry, and a 503 from the
single proactive send attempt is the overall send result. -/
theorem retry_policy_and_proactive_send_witness :
    retryWithBackoff (fun _ => (.error { status := some 404 } : Except ApiError Nat)) 3 100 =
      { outcome := .thrown { status := some 404 }, attemptsMade := 1, delays := [] }
    ∧ (sendProactiveMessage 0 { accessToken := none, accessTokenExpiry := 0 }
        { clientId := "A", clientSecret := "sA" } (fun _ => ("tok", 7200)) "cid123"
        (fun _ _ _ => (.error { status := some 503 } : Except ApiError String))).1 =
      .error { status := some 503 } :=
  ⟨(retry_policy_and_proactive_send
      (fun _ => (.error { status := some 404 } : Except ApiError Nat)) 3 100 0
      { accessToken := none, accessTokenExpiry := 0 }
      { clientId := "A", clientSecret := "sA" } (fun _ => ("tok", 7200)) "cid123"
      (fun _ _ _ => (.error { status := some 503 } : Except ApiError String))).2.2.2.1
      { status := some 404 } (by decide) rfl (by decide),
    (retry_policy_and_proactive_send
      (fun _ => (.error { status := some 404 } : Except ApiError Nat)) 3 100 0
      { accessToken := none, accessTokenExpiry := 0 }
      { clientId := "A", clientSecret := "sA" } (fun _ => ("tok", 7200)) "cid123"
      (fun _ _ _ => (.error { status := some 503 } : Except ApiError String))).2.2.2.2.2.2
      { status := some 503 } (fun _ _ => rfl)⟩

theorem normalizeAllowFrom_hasEntries_iff (list : List String) :
    (normalizeAllowFrom list).hasEntries = true ↔ ∃ x ∈ list, jsTrim x ≠ "" := by
  simp only [normalizeAllowFrom, decide_eq_true_eq, gt_iff_lt,
    List.length_pos_iff_exists_mem, List.mem_filter, List.mem_map, decide_eq_true_eq]
  constructor
  · rintro ⟨a, ⟨y, hy, rfl⟩, hne⟩
    exact ⟨y, hy, hne⟩
  · rintro ⟨y, hy, hne⟩
    exact ⟨jsTrim y, ⟨y, hy, rfl⟩, hne⟩

theorem normalizeAllowFrom_hasWildcard_iff (list : List String) :
    (normalizeAllowFrom list).hasWildcard = true ↔ ∃ x ∈ list, jsTrim x = "*" := by
  simp only [normalizeAllowFrom, List.contains, List.elem_iff, List.mem_filter,
    List.mem_map, decide_eq_true_eq]
  constructor
  · rintro ⟨⟨y, hy, hyt⟩, -⟩
    exact ⟨y, hy, hyt⟩
  · rintro ⟨y, hy, hyt⟩
    exact ⟨⟨y, hy, hyt⟩, by decide⟩

theorem normalizeAllowFrom_mem_entriesLower_iff (list : List String) (s : String) :
    s ∈ (normalizeAllowFrom list).entriesLower ↔
      ∃ y ∈ list, jsTrim y ≠ "" ∧ jsTrim y ≠ "*" ∧ jsToLower (normalizeEntry (jsTrim y)) = s := by
  simp only [normalizeAllowFrom, List.mem_map, List.mem_filter, decide_eq_true_eq]
  constructor
  · rintro ⟨z, ⟨x, ⟨⟨⟨y, hy, rfl⟩, hne⟩, hstar⟩, rfl⟩, rfl⟩
    exact ⟨y, hy, hne, hstar, rfl⟩
  · rintro ⟨y, hy, hne, hstar, rfl⟩
    exact ⟨normalizeEntry (jsTrim y), ⟨jsTrim y, ⟨⟨⟨y, hy, rfl⟩, hne⟩, hstar⟩, rfl⟩, rfl⟩

/-- C9 (amended): under the `allowlist` policy a sender is blocked iff the
allowFrom list has at least one non-blank entry, no entry trims to the
`"*"` wildcard, and — when the sender id is present and non-empty — no
non-blank entry normalizes (prefix-stripped, lowercased) to the sender's
lowercased id.  A sender with a missing or empty id is blocked by any
non-empty non-wildcard allowlist even if some entry normalizes to the
empty string; with no non-blank entries or with a wildcard entry, every
sender is authorized. -/
theorem isSenderAllowed_false_iff (list : List String) (senderId : Option String) :
    (isSenderAllowed (normalizeAllowFrom list) senderId = false ↔
      ((∃ x ∈ list, jsTrim x ≠ "") ∧ (∀ x ∈ list, jsTrim x ≠ "*")
        ∧ ∀ s, senderId = some s → s = "" ∨
            ∀ x ∈ list, jsTrim x = "" ∨ jsTrim x = "*" ∨
              jsToLower (normalizeEntry (jsTrim x)) ≠ jsToLower s))
    ∧ ((∀ x ∈ list, jsTrim x = "") → isSenderAllowed (normalizeAllowFrom list) senderId = true)
    ∧ ((∃ x ∈ list, jsTrim x = "*") →
        isSenderAllowed (normalizeAllowFrom list) senderId = true) := by
  refine ⟨?_, ?_, ?_⟩
  · unfold isSenderAllowed
    by_cases hE : (normalizeAllowFrom list).hasEntries = true
    · by_cases hW : (normalizeAllowFrom list).hasWildcard = true
      · simp only [hE, hW, Bool.not_true, Bool.false_eq_true, if_false, if_true]
        constructor
        · intro hcontra
          exact absurd hcontra (by simp)
        · rintro ⟨-, hnostar, -⟩
          obtain ⟨y, hy, hyt⟩ := (normalizeAllowFrom_hasWildcard_iff list).mp hW
          exact absurd hyt (hnostar y hy)
      · simp only [hE, hW, Bool.not_true, Bool.false_eq_true, if_false]
        have hnostar : ∀ x ∈ list, jsTrim x ≠ "*" := by
          intro x hx hxt
          exact hW ((normalizeAllowFrom_hasWildcard_iff list).mpr ⟨x, hx, hxt⟩)
        cases senderId with
        | none =>
          simp only [true_iff]
          refine ⟨(normalizeAllowFrom_hasEntries_iff list).mp hE, hnostar, ?_⟩
          intro s hs
          exact absurd hs (by simp)
        | some sid =>
          by_cases hsid : sid = ""
          · subst hsid
            simp only [show (("" : String) != "") = false from rfl, Bool.false_and,
              Bool.false_eq_true, true_iff]
            refine ⟨(normalizeAllowFrom_hasEntries_iff list).mp hE, hnostar, ?_⟩
            intro s hs
            left
            exact (Option.some_inj.mp hs).symm
          · have hbne : (sid != "") = true := by
              simpa using hsid
            simp only [hbne, Bool.true_and]
            rw [Bool.eq_false_iff, Ne, List.contains, List.elem_iff,
              normalizeAllowFrom_mem_entriesLower_iff]
            constructor
            · intro hnomem
              refine ⟨(normalizeAllowFrom_hasEntries_iff list).mp hE, hnostar, ?_⟩
              intro s hs
              right
              intro x hx
              rcases Option.some_inj.mp hs with rfl
              by_cases hxb : jsTrim x = ""
              · exact Or.inl hxb
              · refine Or.inr (Or.inr ?_)
                intro hlow
                exact hnomem ⟨x, hx, hxb, hnostar x hx, hlow⟩
            · rintro ⟨-, -, hno⟩ ⟨y, hy, hyb, hys, hylow⟩
              rcases hno sid rfl with rfl | hall
              · exact hsid rfl
              · rcases hall y hy with h1 | h1 | h1
                · exact hyb h1
                · exact hys h1
                · exact h1 hylow
    · simp only [hE]
      constructor
      · intro hcontra
        exact absurd hcontra (by simp [hE])
      · rintro ⟨hex, -, -⟩
        exact absurd ((normalizeAllowFrom_hasEntries_iff list).mpr hex) hE
  · intro hallblank
    unfold isSenderAllowed
    have hE : (normalizeAllowFrom list).hasEntries = false := by
      rw [Bool.eq_false_iff, Ne, normalizeAllowFrom_hasEntries_iff]
      rintro ⟨x, hx, hne⟩
      exact hne (hallblank x hx)
    simp [hE]
  · intro hstar
    unfold isSenderAllowed
    have hW : (normalizeAllowFrom list).hasWildcard = true :=
      (normalizeAllowFrom_hasWildcard_iff list).mpr hstar
    simp [hW]

/-- C9 counterexample: the claim says a sender is blocked only when no
entry normalizes to the sender's id; yet with `allowFrom = ["dd:"]`
(non-empty, no wildcard, and its single entry normalizes to the empty
string) a sender whose id is the empty string is still blocked, because
the code additionally requires a truthy sender id. -/
theorem allowlist_empty_sender_counterexample :
    isSenderAllowed (normalizeAllowFrom ["dd:"]) (some "") = false
    ∧ jsToLower (normalizeEntry (jsTrim "dd:")) = jsToLower ""
    ∧ jsTrim "dd:" ≠ "" ∧ jsTrim "dd:" ≠ "*" := by decide

/-- C9 witness for `isSenderAllowed_false_iff`: a wildcard entry authorizes
any sender. -/
theorem isSenderAllowed_false_iff_witness :
    isSenderAllowed (normalizeAllowFrom ["*"]) (some "u9") = true :=
  (isSenderAllowed_false_iff ["*"] (some "u9")).2.2 ⟨"*", by decide, by decide⟩

end Clawdbot
